import Mathlib

/-!
# Verification of the pyecca attitude-filter comparison (`src/examples/sim.py`)

Shallow embedding of the attitude-estimation filter bank of
`src/examples/sim.py` over real-number semantics.

The file `sim.py` is the only source file of the repository; the helper
modules it imports (`pyecca2.rotation`, `pyecca2.util`, `pyecca2.system`,
`pyecca2.msgs`) are not part of the sources.  Definitions taken from those
missing modules are modelled from the specification (`spec.md`) and carry a
doc comment starting with `Modelled from the spec:`.  Everything else is a
direct translation of `sim.py`:

* `mrp_*`   — the MRP right-invariant derivation (`mrp_derivation`, lines 15-87)
* `quat_*`  — the quaternion right-invariant derivation (`quat_derivation`, lines 93-158)
* `mekf_*`  — the multiplicative EKF derivation (`mekf_derivation`, lines 164-232)
* `imu_callback` / `imu_dt` — the timestamp handling of
  `AttitudeEstimator.imu_callback` (lines 311-325)

State vectors `x : Fin 7 → ℝ` hold the rotation block in entries 0-3 and the
gyro bias in entries 4-6, exactly as in the source.  The covariance factor is
a full 6×6 real matrix; the casadi `Sparsity_lower` input pattern is expressed
by the `IsLowerTri` hypothesis where a claim assumes it.
-/

noncomputable section

open Matrix

abbrev Vec3 := Fin 3 → ℝ
abbrev Vec4 := Fin 4 → ℝ
abbrev Vec6 := Fin 6 → ℝ
abbrev Vec7 := Fin 7 → ℝ
abbrev Mat3 := Matrix (Fin 3) (Fin 3) ℝ
abbrev Mat6 := Matrix (Fin 6) (Fin 6) ℝ

/-- The all-zero 3-vector, standing for `np.zeros(3)` in the source. -/
def zero3 : Vec3 := fun _ => 0

/-- Rotation block `x[0:4]` of a 7-dim state. -/
def rot4 (x : Vec7) : Vec4 := fun i => x ⟨(i : ℕ), by have := i.isLt; omega⟩

/-- Gyro-bias block `x[4:7]` of a 7-dim state. -/
def bias (x : Vec7) : Vec3 := fun i => x ⟨(i : ℕ) + 4, by have := i.isLt; omega⟩

/-- `ca.vertcat` of a 4-vector and a 3-vector into a 7-dim state. -/
def vcat4_3 (a : Vec4) (b : Vec3) : Vec7 := fun i =>
  if h : (i : ℕ) < 4 then a ⟨(i : ℕ), h⟩ else b ⟨(i : ℕ) - 4, by have := i.isLt; omega⟩

/-- Rotation part `eta[0:3]` of a 6-dim error state. -/
def etaR (e : Vec6) : Vec3 := fun i => e ⟨(i : ℕ), by have := i.isLt; omega⟩

/-- Bias part `eta[3:6]` of a 6-dim error state. -/
def etaB (e : Vec6) : Vec3 := fun i => e ⟨(i : ℕ) + 3, by have := i.isLt; omega⟩

/-- `ca.vertcat` of two 3-vectors into a 6-dim error state. -/
def vcat3_3 (a b : Vec3) : Vec6 := fun i =>
  if h : (i : ℕ) < 3 then a ⟨(i : ℕ), h⟩ else b ⟨(i : ℕ) - 3, by have := i.isLt; omega⟩

/-- Cross product of 3-vectors. -/
def cross (a b : Vec3) : Vec3 := fun i =>
  if i = 0 then a 1 * b 2 - a 2 * b 1
  else if i = 1 then a 2 * b 0 - a 0 * b 2
  else a 0 * b 1 - a 1 * b 0

/-- Dot product of 3-vectors. -/
def dot3 (a b : Vec3) : ℝ := a 0 * b 0 + a 1 * b 1 + a 2 * b 2

/-- Skew (cross-product) matrix of a 3-vector. -/
def skew (v : Vec3) : Mat3 := fun i j =>
  if i = 0 then (if j = 1 then -v 2 else if j = 2 then v 1 else 0)
  else if i = 1 then (if j = 0 then v 2 else if j = 2 then -v 0 else 0)
  else (if j = 0 then -v 1 else if j = 1 then v 0 else 0)

/-- Squared magnitude of the MRP 3-vector part of a 4-dim `(r, shadow)` state. -/
def mrp_norm_sq (r : Vec4) : ℝ := r 0 ^ 2 + r 1 ^ 2 + r 2 ^ 2

/-- Magnitude `|r|` of the MRP 3-vector part of a 4-dim `(r, shadow)` state. -/
def mrp_norm (r : Vec4) : ℝ := Real.sqrt (mrp_norm_sq r)

/-- Modelled from the spec: `quaternion_derivative(q, ω)` of `pyecca2.rotation`
(missing from the sources) — the standard quaternion kinematic equation
`q̇ = ½ q ⊗ (0, ω)` with scalar-first components. -/
def quat_derivative (q : Vec4) (w : Vec3) : Vec4 :=
  let qv : Vec3 := fun k => q ⟨(k : ℕ) + 1, by have := k.isLt; omega⟩
  fun i =>
    if (i : ℕ) = 0 then -(dot3 qv w) / 2
    else (q 0 * w ⟨(i : ℕ) - 1, by have := i.isLt; omega⟩
      + cross qv w ⟨(i : ℕ) - 1, by have := i.isLt; omega⟩) / 2

/-- Modelled from the spec: `mrp_derivative(r, ω)` of `pyecca2.rotation`
(missing from the sources) — the standard MRP kinematic equation
`ṙ = ¼((1-|r|²)ω + 2 r×ω + 2 (r·ω) r)`; the shadow flag is constant. -/
def mrp_derivative (r : Vec4) (w : Vec3) : Vec4 :=
  let rv : Vec3 := fun k => r ⟨(k : ℕ), by have := k.isLt; omega⟩
  fun i =>
    if h : (i : ℕ) < 3 then
      (1 / 4) * ((1 - mrp_norm_sq r) * w ⟨(i : ℕ), h⟩ + 2 * cross rv w ⟨(i : ℕ), h⟩
        + 2 * dot3 rv w * rv ⟨(i : ℕ), h⟩)
    else 0

/-- Modelled from the spec: `shadow_if_required(r)` of `pyecca2.rotation`
(missing from the sources) — "returns the shadow MRP (`r·(-1/|r|²)` transform)
when `|r| > 1`, else `r` unchanged"; the shadow flag is toggled when the
transform fires. -/
def shadow_if_required (r : Vec4) : Vec4 :=
  if 1 < mrp_norm r then
    fun i =>
      if (i : ℕ) < 3 then -(r ⟨(i : ℕ), by have := i.isLt; omega⟩) / mrp_norm_sq r
      else 1 - r 3
  else r

/-- Modelled from the spec: `Quat.from_mrp` of `pyecca2.rotation`
(missing from the sources) — the standard conversion
`q = ((1-|r|²), 2r) / (1+|r|²)`. -/
def quat_from_mrp (r : Vec4) : Vec4 := fun i =>
  if (i : ℕ) = 0 then (1 - mrp_norm_sq r) / (1 + mrp_norm_sq r)
  else 2 * r ⟨(i : ℕ) - 1, by have := i.isLt; omega⟩ / (1 + mrp_norm_sq r)

/-- Modelled from the spec: `Dcm.from_quat` of `pyecca2.rotation`
(missing from the sources) — the standard rotation matrix of a unit
quaternion, scalar-first. -/
def dcm_from_quat (q : Vec4) : Mat3 := fun i j =>
  if i = 0 then
    (if j = 0 then 1 - 2 * (q 2 ^ 2 + q 3 ^ 2)
     else if j = 1 then 2 * (q 1 * q 2 - q 0 * q 3)
     else 2 * (q 1 * q 3 + q 0 * q 2))
  else if i = 1 then
    (if j = 0 then 2 * (q 1 * q 2 + q 0 * q 3)
     else if j = 1 then 1 - 2 * (q 1 ^ 2 + q 3 ^ 2)
     else 2 * (q 2 * q 3 - q 0 * q 1))
  else
    (if j = 0 then 2 * (q 1 * q 3 - q 0 * q 2)
     else if j = 1 then 2 * (q 2 * q 3 + q 0 * q 1)
     else 1 - 2 * (q 1 ^ 2 + q 2 ^ 2))

/-- Modelled from the spec: `Dcm.from_mrp` of `pyecca2.rotation`
(missing from the sources) — composition of the two conversions. -/
def dcm_from_mrp (r : Vec4) : Mat3 := dcm_from_quat (quat_from_mrp r)

/-- Modelled from the spec: `SO3.exp` of `pyecca2.rotation`
(missing from the sources) — the Rodrigues form of the exponential map. -/
def so3_exp (v : Vec3) : Mat3 :=
  let theta := Real.sqrt (dot3 v v)
  1 + (Real.sin theta / theta) • skew v
    + ((1 - Real.cos theta) / theta ^ 2) • (skew v * skew v)

/-- Modelled from the spec: `util.rk4` of `pyecca2.util`
(missing from the sources) — the classical fixed-step 4th-order Runge-Kutta
step: stage derivatives at `t`, `t+dt/2` (twice), `t+dt`, combined with
weights `1/6, 1/3, 1/3, 1/6`. -/
def rk4 {α : Type} [AddCommGroup α] [Module ℝ α]
    (f : ℝ → α → α) (t : ℝ) (y : α) (h : ℝ) : α :=
  let k1 := f t y
  let k2 := f (t + h / 2) (y + (h / 2) • k1)
  let k3 := f (t + h / 2) (y + (h / 2) • k2)
  let k4 := f (t + h) (y + h • k3)
  y + (h / 6) • (k1 + (2 : ℝ) • k2 + (2 : ℝ) • k3 + k4)

/-- `ca.tril`: keep the lower-triangular part (diagonal included), zero the
strictly-upper part. -/
def tril (M : Mat6) : Mat6 := fun i j => if (j : ℕ) ≤ (i : ℕ) then M i j else 0

/-- Modelled from the spec: `util.sqrt_covariance_predict(W, F, Q)` of
`pyecca2.util` (missing from the sources) — the square-root Riccati
right-hand side `F·W + 0.5·Q·W⁻ᵀ`; the source wraps it in `ca.tril`. -/
def sqrt_covariance_predict (W F Q : Mat6) : Mat6 :=
  F * W + (1 / 2 : ℝ) • (Q * (W⁻¹)ᵀ)

/-- Process-noise covariance built identically in all three derivations
(`sim.py` lines 25-28, 102-105, 173-176):
`std_gyro_rw = sn_gyro_rw / sqrt(dt)`,
`Q = diag(vertcat(std_gyro×3, std_gyro_rw×3) ** 2)`. -/
def Qcov (std_gyro sn_gyro_rw dt : ℝ) : Mat6 :=
  Matrix.diagonal (fun i =>
    (if (i : ℕ) < 3 then std_gyro else sn_gyro_rw / Real.sqrt dt) ^ 2)

/-- 6×6 block matrix `[[A, B], [0, 0]]` with 3×3 blocks, used to express the
linearized error dynamics `F` of each derivation. -/
def Fblock (A B : Mat3) : Mat6 := fun i j =>
  if hi : (i : ℕ) < 3 then
    (if hj : (j : ℕ) < 3 then A ⟨(i : ℕ), hi⟩ ⟨(j : ℕ), hj⟩
     else B ⟨(i : ℕ), hi⟩ ⟨(j : ℕ) - 3, by have := j.isLt; omega⟩)
  else 0

/-! ## MRP right-invariant derivation (`mrp_derivation`, `sim.py` lines 15-87) -/

/-- `xdot = vertcat(r.derivative(omega - b_g + w_g), w_b)` (line 40). -/
def mrp_xdot (t : ℝ) (x : Vec7) (omega w_g w_b : Vec3) : Vec7 :=
  vcat4_3 (mrp_derivative (rot4 x) (fun i => omega i - bias x i + w_g i)) w_b

/-- State propagation with noise (lines 44-45): RK4 step, then
`x1_sim[:4] = shadow_if_required(x1_sim[:4])`. -/
def mrp_simulate (t : ℝ) (x : Vec7) (omega w_g w_b : Vec3) (dt : ℝ) : Vec7 :=
  let x1 := rk4 (fun s y => mrp_xdot s y omega w_g w_b) t x dt
  vcat4_3 (shadow_if_required (rot4 x1)) (bias x1)

/-- Noise-free mean propagation of `predict` (lines 48-49): RK4 step with
`w_g = w_b = zeros(3)`, then `x1[:4] = shadow_if_required(x1[:4])`. -/
def mrp_predict_x (t : ℝ) (x : Vec7) (omega : Vec3) (dt : ℝ) : Vec7 :=
  let x1 := rk4 (fun s y => mrp_xdot s y omega zero3 zero3) t x dt
  vcat4_3 (shadow_if_required (rot4 x1)) (bias x1)

/-- Error dynamics `f` (lines 62-63):
`vertcat(-Dcm.from_mrp(r) · eta[3:6], w_b)`. -/
def mrp_err_f (omega : Vec3) (eta : Vec6) (x : Vec7) (w_b : Vec3) : Vec6 :=
  vcat3_3 (fun i => -((dcm_from_mrp (rot4 x)) *ᵥ etaB eta) i) w_b

/-- Linearized error dynamics `F = ∂f/∂η` at `η = 0` (line 66).  `mrp_err_f`
is affine in `eta`, with the rotation rows equal to `-D · eta[3:6]` and the
bias rows constant, so the jacobian is the block matrix `[[0, -D], [0, 0]]`
(the symbolic `ca.jacobian` + `ca.substitute` of the source, done by hand). -/
def mrp_F (omega : Vec3) (x : Vec7) : Mat6 := Fblock 0 (-(dcm_from_mrp (rot4 x)))

/-- `f_W_dot_lt` (lines 70-73): `tril(sqrt_covariance_predict(W, F, Q))`. -/
def mrp_W_dot_lt (x : Vec7) (W : Mat6) (std_gyro sn_gyro_rw : ℝ)
    (omega : Vec3) (dt : ℝ) : Mat6 :=
  tril (sqrt_covariance_predict W (mrp_F omega x) (Qcov std_gyro sn_gyro_rw dt))

/-- `W1 = rk4(lambda t, y: f_W_dot_lt(x, y, ...), t, W, dt)` (line 74). -/
def mrp_predict_W (t : ℝ) (x : Vec7) (W : Mat6) (omega : Vec3)
    (std_gyro sn_gyro_rw dt : ℝ) : Mat6 :=
  rk4 (fun s y => mrp_W_dot_lt x y std_gyro sn_gyro_rw omega dt) t W dt

/-- `predict` (lines 81-82): returns `(x1, W1)`. -/
def mrp_predict (t : ℝ) (x : Vec7) (W : Mat6) (omega : Vec3)
    (std_gyro sn_gyro_rw dt : ℝ) : Vec7 × Mat6 :=
  (mrp_predict_x t x omega dt, mrp_predict_W t x W omega std_gyro sn_gyro_rw dt)

/-- `get_state` (line 85): quaternion from the MRP block, and the bias. -/
def mrp_get_state (x : Vec7) : Vec4 × Vec3 := (quat_from_mrp (rot4 x), bias x)

/-- `x0 = ca.DM.zeros(7)` (line 77). -/
def mrp_x0 : Vec7 := fun _ => 0

/-- `W0 = 1e-3*np.eye(n_e)` (lines 78, 149, 223 — identical in all three
derivations). -/
def W0 : Mat6 := (1e-3 : ℝ) • 1

/-- `constants` (line 86). -/
def mrp_constants : Vec7 × Mat6 := (mrp_x0, W0)

/-! ## Quaternion right-invariant derivation (`quat_derivation`, lines 93-158) -/

/-- `xdot = vertcat(q.derivative(omega - b_g + w_g), w_b)` (line 116). -/
def quat_xdot (t : ℝ) (x : Vec7) (omega w_g w_b : Vec3) : Vec7 :=
  vcat4_3 (quat_derivative (rot4 x) (fun i => omega i - bias x i + w_g i)) w_b

/-- Noise-free mean propagation (line 123). -/
def quat_predict_x (t : ℝ) (x : Vec7) (omega : Vec3) (dt : ℝ) : Vec7 :=
  rk4 (fun s y => quat_xdot s y omega zero3 zero3) t x dt

/-- `simulate` of the quaternion derivation (line 154) returns `x1`, the
noise-free RK4 step — the source binds the noiseless `x1`, not `x1_sim`,
so `w_g`/`w_b` are accepted but unused. -/
def quat_simulate (t : ℝ) (x : Vec7) (omega w_g w_b : Vec3) (dt : ℝ) : Vec7 :=
  rk4 (fun s y => quat_xdot s y omega zero3 zero3) t x dt

/-- Error dynamics `f` (lines 133-134):
`vertcat(-Dcm.from_quat(q) · eta[3:6], w_b)`. -/
def quat_err_f (omega : Vec3) (eta : Vec6) (x : Vec7) (w_b : Vec3) : Vec6 :=
  vcat3_3 (fun i => -((dcm_from_quat (rot4 x)) *ᵥ etaB eta) i) w_b

/-- Linearized error dynamics (line 137), hand-computed as for `mrp_F`:
`[[0, -Dcm(q)], [0, 0]]`. -/
def quat_F (omega : Vec3) (x : Vec7) : Mat6 := Fblock 0 (-(dcm_from_quat (rot4 x)))

/-- `f_W_dot_lt` (lines 141-144). -/
def quat_W_dot_lt (x : Vec7) (W : Mat6) (std_gyro sn_gyro_rw : ℝ)
    (omega : Vec3) (dt : ℝ) : Mat6 :=
  tril (sqrt_covariance_predict W (quat_F omega x) (Qcov std_gyro sn_gyro_rw dt))

/-- `W1` (line 145). -/
def quat_predict_W (t : ℝ) (x : Vec7) (W : Mat6) (omega : Vec3)
    (std_gyro sn_gyro_rw dt : ℝ) : Mat6 :=
  rk4 (fun s y => quat_W_dot_lt x y std_gyro sn_gyro_rw omega dt) t W dt

/-- `predict` (lines 152-153). -/
def quat_predict (t : ℝ) (x : Vec7) (W : Mat6) (omega : Vec3)
    (std_gyro sn_gyro_rw dt : ℝ) : Vec7 × Mat6 :=
  (quat_predict_x t x omega dt, quat_predict_W t x W omega std_gyro sn_gyro_rw dt)

/-- `get_state` (line 156): the quaternion is the raw state block. -/
def quat_get_state (x : Vec7) : Vec4 × Vec3 := (rot4 x, bias x)

/-- `x0 = ca.DM([1, 0, 0, 0, 0, 0, 0])` (line 148). -/
def quat_x0 : Vec7 := fun i => if (i : ℕ) = 0 then 1 else 0

/-- `constants` (line 157). -/
def quat_constants : Vec7 × Mat6 := (quat_x0, W0)

/-! ## Multiplicative EKF derivation (`mekf_derivation`, lines 164-232) -/

/-- `xdot` (line 187) — same quaternion-and-bias kinematics as the
quaternion derivation. -/
def mekf_xdot (t : ℝ) (x : Vec7) (omega w_g w_b : Vec3) : Vec7 :=
  vcat4_3 (quat_derivative (rot4 x) (fun i => omega i - bias x i + w_g i)) w_b

/-- Noise-free mean propagation (line 194). -/
def mekf_predict_x (t : ℝ) (x : Vec7) (omega : Vec3) (dt : ℝ) : Vec7 :=
  rk4 (fun s y => mekf_xdot s y omega zero3 zero3) t x dt

/-- `simulate` of the MEKF derivation (line 228) returns the noise-free `x1`,
as in the quaternion derivation. -/
def mekf_simulate (t : ℝ) (x : Vec7) (omega w_g w_b : Vec3) (dt : ℝ) : Vec7 :=
  rk4 (fun s y => mekf_xdot s y omega zero3 zero3) t x dt

/-- Error dynamics `f` (lines 206-208):
`vertcat(-(I - exp(η_r))·(omega - b_g) - exp(η_r)·η_b, w_b)`. -/
def mekf_err_f (omega : Vec3) (eta : Vec6) (x : Vec7) (w_b : Vec3) : Vec6 :=
  vcat3_3 (fun i =>
    -((1 - so3_exp (etaR eta)) *ᵥ (fun j => omega j - bias x j)) i
      - (so3_exp (etaR eta) *ᵥ etaB eta) i) w_b

/-- Linearized error dynamics (line 211), hand-computed jacobian of
`mekf_err_f` at `η = 0`: with `E(η_r) = exp(η_r)`, the rotation rows are
`-(I - E)·(ω-b) - E·η_b`; differentiating `E·(ω-b)` in `η_r` at 0 gives
`δ ↦ δ × (ω-b) = -[ω-b]ₓ δ`, and the `η_b` derivative at 0 is `-E(0) = -I`,
so `F = [[-skew(ω-b), -I], [0, 0]]`. -/
def mekf_F (omega : Vec3) (x : Vec7) : Mat6 :=
  Fblock (-(skew (fun i => omega i - bias x i))) (-1)

/-- `f_W_dot_lt` (lines 215-218). -/
def mekf_W_dot_lt (x : Vec7) (W : Mat6) (std_gyro sn_gyro_rw : ℝ)
    (omega : Vec3) (dt : ℝ) : Mat6 :=
  tril (sqrt_covariance_predict W (mekf_F omega x) (Qcov std_gyro sn_gyro_rw dt))

/-- `W1` (line 219). -/
def mekf_predict_W (t : ℝ) (x : Vec7) (W : Mat6) (omega : Vec3)
    (std_gyro sn_gyro_rw dt : ℝ) : Mat6 :=
  rk4 (fun s y => mekf_W_dot_lt x y std_gyro sn_gyro_rw omega dt) t W dt

/-- `predict` (lines 226-227). -/
def mekf_predict (t : ℝ) (x : Vec7) (W : Mat6) (omega : Vec3)
    (std_gyro sn_gyro_rw dt : ℝ) : Vec7 × Mat6 :=
  (mekf_predict_x t x omega dt, mekf_predict_W t x W omega std_gyro sn_gyro_rw dt)

/-- `get_state` (line 230). -/
def mekf_get_state (x : Vec7) : Vec4 × Vec3 := (rot4 x, bias x)

/-- `x0 = ca.DM([1, 0, 0, 0, 0, 0, 0])` (line 222). -/
def mekf_x0 : Vec7 := fun i => if (i : ℕ) = 0 then 1 else 0

/-- `constants` (line 231). -/
def mekf_constants : Vec7 × Mat6 := (mekf_x0, W0)

/-! ## AttitudeEstimator imu handling (`sim.py` lines 287-325) -/

/-- The `(x, W, t_last_imu)` state owned by one `AttitudeEstimator`. -/
structure EstState where
  x : Vec7
  W : Mat6
  t_last_imu : ℝ

/-- An `Imu` message: `time` and `gyro` fields. -/
structure ImuMsg where
  time : ℝ
  gyro : Vec3

/-- Timestep computed by `imu_callback` (lines 314-318):
`dt = t - t_last_imu`, replaced by the nominal `1/200` when `dt ≤ 0`. -/
def imu_dt (t_last t : ℝ) : ℝ := if t - t_last ≤ 0 then 1 / 200 else t - t_last

/-- One `imu_callback` step (lines 311-325), parametrized by the bound
derivation's `predict`: computes `dt`, records `t_last_imu = msg.time` and
runs `predict` with the estimator-internal constants
`std_gyro = sn_gyro_rw = 1e-2`. -/
def imu_callback (predict : ℝ → Vec7 → Mat6 → Vec3 → ℝ → ℝ → ℝ → Vec7 × Mat6)
    (s : EstState) (msg : ImuMsg) : EstState :=
  let t := msg.time
  let dt := imu_dt s.t_last_imu t
  let r := predict t s.x s.W msg.gyro (1e-2 : ℝ) (1e-2 : ℝ) dt
  { x := r.1, W := r.2, t_last_imu := t }

/-- `n` repeated `predict` mean steps at fixed stride `dt`, the `k`-th step
running at virtual time `k·dt` (the estimator state iteration of a run). -/
def iterate_predict (step : ℝ → Vec7 → Vec7) (dt : ℝ) : ℕ → Vec7 → Vec7
  | 0, x => x
  | n + 1, x => step ((n : ℝ) * dt) (iterate_predict step dt n x)

/-- Identity quaternion `(1, 0, 0, 0)`. -/
def q_id : Vec4 := fun i => if (i : ℕ) = 0 then 1 else 0

/-- A matrix is lower-triangular: every strictly-upper entry is zero. -/
def IsLowerTri (M : Mat6) : Prop := ∀ i j : Fin 6, (i : ℕ) < (j : ℕ) → M i j = 0

/-! ## Basic lemmas about the state layout -/

theorem zero3_apply (i : Fin 3) : zero3 i = 0 := rfl

theorem rot4_vcat (a : Vec4) (b : Vec3) : rot4 (vcat4_3 a b) = a := by
  funext i
  have hi := i.isLt
  simp only [rot4, vcat4_3]
  rw [dif_pos hi]

theorem bias_vcat (a : Vec4) (b : Vec3) : bias (vcat4_3 a b) = b := by
  funext i
  simp only [bias, vcat4_3]
  rw [dif_neg (by omega)]
  exact congrArg b (Fin.ext (show (i : ℕ) + 4 - 4 = (i : ℕ) by omega))

theorem vcat_split (x : Vec7) : vcat4_3 (rot4 x) (bias x) = x := by
  funext i
  by_cases h : (i : ℕ) < 4
  · simp only [vcat4_3, rot4]
    rw [dif_pos h]
  · simp only [vcat4_3, bias]
    rw [dif_neg h]
    congr 1
    exact Fin.ext (by simp; omega)

theorem vcat4_3_zero : vcat4_3 (fun _ => 0) zero3 = (0 : Vec7) := by
  funext i
  simp only [vcat4_3, zero3, Pi.zero_apply]
  split <;> rfl

/-! ## Kinematic derivatives vanish at zero rate -/

theorem cross_zero_right (a : Vec3) : cross a (fun _ => 0) = fun _ => 0 := by
  funext i
  simp [cross]

theorem dot3_zero_right (a : Vec3) : dot3 a (fun _ => 0) = 0 := by
  simp [dot3]

theorem mrp_derivative_zero (r : Vec4) : mrp_derivative r (fun _ => 0) = fun _ => 0 := by
  funext i
  simp only [mrp_derivative]
  split
  · rw [cross_zero_right, dot3_zero_right]
    ring_nf
  · rfl

theorem quat_derivative_zero (q : Vec4) : quat_derivative q (fun _ => 0) = fun _ => 0 := by
  funext i
  simp only [quat_derivative]
  split
  · rw [dot3_zero_right]
    ring_nf
  · rw [cross_zero_right]
    ring_nf

/-- RK4 leaves an equilibrium point fixed: if the derivative vanishes at `y`
for every time, one step returns `y`. -/
theorem rk4_fixed {α : Type} [AddCommGroup α] [Module ℝ α]
    (f : ℝ → α → α) (y : α) (hf : ∀ s, f s y = 0) (t h : ℝ) : rk4 f t y h = y := by
  simp [rk4, hf]

theorem iterate_predict_fixed (step : ℝ → Vec7 → Vec7) (dt : ℝ) (x : Vec7)
    (h : ∀ s, step s x = x) : ∀ n, iterate_predict step dt n x = x := by
  intro n
  induction n with
  | zero => rfl
  | succ n ih => rw [iterate_predict, ih, h]

/-! ## The initial states are equilibria of the noise-free dynamics -/

theorem bias_mrp_x0 : bias mrp_x0 = zero3 := rfl

theorem bias_quat_x0 : bias quat_x0 = zero3 := by
  funext i
  simp only [bias, quat_x0, zero3]
  rw [if_neg (by omega)]

theorem bias_mekf_x0 : bias mekf_x0 = zero3 := bias_quat_x0

theorem mrp_xdot_x0 (s : ℝ) : mrp_xdot s mrp_x0 zero3 zero3 zero3 = 0 := by
  have hrate : (fun i => zero3 i - bias mrp_x0 i + zero3 i) = (fun _ => (0 : ℝ)) := by
    funext i
    simp [zero3, bias, mrp_x0]
  rw [mrp_xdot, hrate, mrp_derivative_zero]
  exact vcat4_3_zero

theorem quat_xdot_x0 (s : ℝ) : quat_xdot s quat_x0 zero3 zero3 zero3 = 0 := by
  have hrate : (fun i => zero3 i - bias quat_x0 i + zero3 i) = (fun _ => (0 : ℝ)) := by
    rw [bias_quat_x0]
    funext i
    simp [zero3]
  rw [quat_xdot, hrate, quat_derivative_zero]
  exact vcat4_3_zero

theorem mekf_xdot_x0 (s : ℝ) : mekf_xdot s mekf_x0 zero3 zero3 zero3 = 0 := by
  have hrate : (fun i => zero3 i - bias mekf_x0 i + zero3 i) = (fun _ => (0 : ℝ)) := by
    rw [bias_mekf_x0]
    funext i
    simp [zero3]
  rw [mekf_xdot, hrate, quat_derivative_zero]
  exact vcat4_3_zero

theorem shadow_of_le_one (r : Vec4) (h : mrp_norm r ≤ 1) : shadow_if_required r = r := by
  rw [shadow_if_required, if_neg (not_lt.mpr h)]

theorem mrp_norm_x0 : mrp_norm (rot4 mrp_x0) = 0 := by
  simp [mrp_norm, mrp_norm_sq, rot4, mrp_x0]

theorem mrp_predict_x_x0 (s dtv : ℝ) : mrp_predict_x s mrp_x0 zero3 dtv = mrp_x0 := by
  simp only [mrp_predict_x]
  rw [rk4_fixed _ _ mrp_xdot_x0 s dtv]
  rw [shadow_of_le_one _ (by rw [mrp_norm_x0]; norm_num), vcat_split]

theorem quat_predict_x_x0 (s dtv : ℝ) : quat_predict_x s quat_x0 zero3 dtv = quat_x0 :=
  rk4_fixed _ _ quat_xdot_x0 s dtv

theorem mekf_predict_x_x0 (s dtv : ℝ) : mekf_predict_x s mekf_x0 zero3 dtv = mekf_x0 :=
  rk4_fixed _ _ mekf_xdot_x0 s dtv

theorem quat_from_mrp_x0 : quat_from_mrp (rot4 mrp_x0) = q_id := by
  funext i
  simp only [quat_from_mrp, q_id]
  have hn : mrp_norm_sq (rot4 mrp_x0) = 0 := by simp [mrp_norm_sq, rot4, mrp_x0]
  rw [hn]
  by_cases h : (i : ℕ) = 0
  · rw [if_pos h, if_pos h]
    norm_num
  · rw [if_neg h, if_neg h]
    norm_num [rot4, mrp_x0]

theorem rot4_quat_x0 : rot4 quat_x0 = q_id := rfl

theorem rot4_mekf_x0 : rot4 mekf_x0 = q_id := rfl

/-- C6: starting from `x0` (identity rotation, zero bias) with `ω = 0`, zero
noise and `dt = 0.005`, 200 iterated `predict` mean steps (1 simulated
second) leave every parametrization's reported quaternion equal to
`(1,0,0,0)` within `1e-9` componentwise, and the bias exactly `(0,0,0)`.
(The state output `x1` of `predict` does not depend on `W`, so the iteration
runs on the mean propagation `*_predict_x`.) -/
theorem C6_zero_noise_identity :
    (∀ i : Fin 4,
      |(mrp_get_state (iterate_predict (fun s y => mrp_predict_x s y zero3 (0.005 : ℝ))
        (0.005 : ℝ) 200 mrp_x0)).1 i - q_id i| ≤ 1e-9) ∧
    (mrp_get_state (iterate_predict (fun s y => mrp_predict_x s y zero3 (0.005 : ℝ))
        (0.005 : ℝ) 200 mrp_x0)).2 = zero3 ∧
    (∀ i : Fin 4,
      |(quat_get_state (iterate_predict (fun s y => quat_predict_x s y zero3 (0.005 : ℝ))
        (0.005 : ℝ) 200 quat_x0)).1 i - q_id i| ≤ 1e-9) ∧
    (quat_get_state (iterate_predict (fun s y => quat_predict_x s y zero3 (0.005 : ℝ))
        (0.005 : ℝ) 200 quat_x0)).2 = zero3 ∧
    (∀ i : Fin 4,
      |(mekf_get_state (iterate_predict (fun s y => mekf_predict_x s y zero3 (0.005 : ℝ))
        (0.005 : ℝ) 200 mekf_x0)).1 i - q_id i| ≤ 1e-9) ∧
    (mekf_get_state (iterate_predict (fun s y => mekf_predict_x s y zero3 (0.005 : ℝ))
        (0.005 : ℝ) 200 mekf_x0)).2 = zero3 := by
  have hm : iterate_predict (fun s y => mrp_predict_x s y zero3 (0.005 : ℝ))
      (0.005 : ℝ) 200 mrp_x0 = mrp_x0 :=
    iterate_predict_fixed _ _ _ (fun s => mrp_predict_x_x0 s _) 200
  have hq : iterate_predict (fun s y => quat_predict_x s y zero3 (0.005 : ℝ))
      (0.005 : ℝ) 200 quat_x0 = quat_x0 :=
    iterate_predict_fixed _ _ _ (fun s => quat_predict_x_x0 s _) 200
  have hk : iterate_predict (fun s y => mekf_predict_x s y zero3 (0.005 : ℝ))
      (0.005 : ℝ) 200 mekf_x0 = mekf_x0 :=
    iterate_predict_fixed _ _ _ (fun s => mekf_predict_x_x0 s _) 200
  rw [hm, hq, hk]
  refine ⟨?_, ?_, ?_, ?_, ?_, ?_⟩
  · intro i
    simp only [mrp_get_state, quat_from_mrp_x0]
    rw [sub_self, abs_zero]
    norm_num
  · exact bias_mrp_x0
  · intro i
    simp only [quat_get_state, rot4_quat_x0]
    rw [sub_self, abs_zero]
    norm_num
  · exact bias_quat_x0
  · intro i
    simp only [mekf_get_state, rot4_mekf_x0]
    rw [sub_self, abs_zero]
    norm_num
  · exact bias_mekf_x0

/-- C7: in every parametrization, `constants()` returns an `x0` whose
reported state is the identity quaternion with zero gyro bias, and the
initial covariance factor `1e-3` times the 6×6 identity. -/
theorem C7_constants :
    mrp_get_state mrp_constants.1 = (q_id, zero3) ∧
    quat_get_state quat_constants.1 = (q_id, zero3) ∧
    mekf_get_state mekf_constants.1 = (q_id, zero3) ∧
    (∀ i j : Fin 6, mrp_constants.2 i j = if i = j then (1e-3 : ℝ) else 0) ∧
    (∀ i j : Fin 6, quat_constants.2 i j = if i = j then (1e-3 : ℝ) else 0) ∧
    (∀ i j : Fin 6, mekf_constants.2 i j = if i = j then (1e-3 : ℝ) else 0) := by
  have hW : ∀ i j : Fin 6, W0 i j = if i = j then (1e-3 : ℝ) else 0 := by
    intro i j
    rw [W0, Matrix.smul_apply, Matrix.one_apply]
    split <;> simp
  refine ⟨?_, ?_, ?_, hW, hW, hW⟩
  · rw [mrp_constants, mrp_get_state, quat_from_mrp_x0, bias_mrp_x0]
  · rw [quat_constants, quat_get_state, rot4_quat_x0, bias_quat_x0]
  · rw [mekf_constants, mekf_get_state, rot4_mekf_x0, bias_mekf_x0]

/-- C10: for every input, the quaternion right-invariant filter's `predict`
and the MEKF's `predict` return the same state output `x1` — both are the
same noise-free quaternion-and-bias RK4 step — so the two derivations can
differ only in the covariance-factor output `W1`. -/
theorem C10_quat_mekf_state_agree (t : ℝ) (x : Vec7) (W : Mat6) (omega : Vec3)
    (std_gyro sn_gyro_rw dt : ℝ) :
    (quat_predict t x W omega std_gyro sn_gyro_rw dt).1 =
      (mekf_predict t x W omega std_gyro sn_gyro_rw dt).1 ∧
    (quat_predict t x W omega std_gyro sn_gyro_rw dt).1 =
      rk4 (fun s y => quat_xdot s y omega zero3 zero3) t x dt := ⟨rfl, rfl⟩

/-- C5: on every `Imu` message, the estimator's step `dt` is positive — when
`msg.time - t_last_imu ≤ 0` the nominal default period `1/200` is
substituted — so `predict` is never called with a non-positive step, and
after the callback `t_last_imu` equals `msg.time`. -/
theorem C5_imu_dt_fallback
    (predict : ℝ → Vec7 → Mat6 → Vec3 → ℝ → ℝ → ℝ → Vec7 × Mat6)
    (s : EstState) (m : ImuMsg) :
    0 < imu_dt s.t_last_imu m.time ∧
    (imu_callback predict s m).t_last_imu = m.time ∧
    (m.time - s.t_last_imu ≤ 0 → imu_dt s.t_last_imu m.time = 1 / 200) := by
  refine ⟨?_, rfl, ?_⟩
  · rw [imu_dt]
    by_cases h : m.time - s.t_last_imu ≤ 0
    · rw [if_pos h]
      norm_num
    · rw [if_neg h]
      push_neg at h
      linarith
  · intro h
    rw [imu_dt, if_pos h]

/-- C5 witness: a duplicate timestamp (`t_last_imu = msg.time = 5`) at the
MRP estimator. -/
theorem C5_witness :
    0 < imu_dt (EstState.mk mrp_x0 W0 5).t_last_imu (ImuMsg.mk 5 zero3).time ∧
    (imu_callback mrp_predict (EstState.mk mrp_x0 W0 5) (ImuMsg.mk 5 zero3)).t_last_imu =
      (ImuMsg.mk 5 zero3).time ∧
    ((ImuMsg.mk 5 zero3).time - (EstState.mk mrp_x0 W0 5).t_last_imu ≤ 0 →
      imu_dt (EstState.mk mrp_x0 W0 5).t_last_imu (ImuMsg.mk 5 zero3).time = 1 / 200) :=
  C5_imu_dt_fallback mrp_predict (EstState.mk mrp_x0 W0 5) (ImuMsg.mk 5 zero3)

/-- The spec's process-noise diagonal: `σ_gyro²` three times then `σ_rw²`
three times, with `σ_rw = σ_gyro_rw / √dt`. -/
def Q_diag_spec (std_gyro sn_gyro_rw dt : ℝ) : Fin 6 → ℝ := fun i =>
  if (i : ℕ) < 3 then std_gyro ^ 2 else (sn_gyro_rw / Real.sqrt dt) ^ 2

/-- C8: for every positive `dt`, the process-noise covariance used by every
parametrization's covariance propagation is
`diag(σ_gyro², σ_gyro², σ_gyro², σ_rw², σ_rw², σ_rw²)` with
`σ_rw = σ_gyro_rw / √dt`.  (All three derivations build the same `Qcov`.) -/
theorem C8_process_noise (std_gyro sn_gyro_rw dt : ℝ) (h : 0 < dt) :
    Qcov std_gyro sn_gyro_rw dt =
      Matrix.diagonal (Q_diag_spec std_gyro sn_gyro_rw dt) := by
  have hfun : (fun i : Fin 6 =>
      (if (i : ℕ) < 3 then std_gyro else sn_gyro_rw / Real.sqrt dt) ^ 2) =
      Q_diag_spec std_gyro sn_gyro_rw dt := by
    funext i
    simp only [Q_diag_spec]
    split <;> ring
  rw [Qcov, hfun]

/-- C8 witness: concrete instance at `σ_gyro = 1`, `σ_gyro_rw = 2`, `dt = 1`. -/
theorem C8_witness :
    0 < (1 : ℝ) ∧ Qcov 1 2 1 = Matrix.diagonal (Q_diag_spec 1 2 1) :=
  ⟨by norm_num, C8_process_noise 1 2 1 (by norm_num)⟩

/-- The spec's error dynamics for the MRP right-invariant filter:
rotation-error derivative `-DCM(x)·η_bias`, bias-error derivative `w_bias`. -/
def mrp_err_f_spec (omega : Vec3) (eta : Vec6) (x : Vec7) (w_b : Vec3) : Vec6 :=
  vcat3_3 ((-(dcm_from_mrp (rot4 x))) *ᵥ etaB eta) w_b

/-- The spec's error dynamics for the quaternion right-invariant filter. -/
def quat_err_f_spec (omega : Vec3) (eta : Vec6) (x : Vec7) (w_b : Vec3) : Vec6 :=
  vcat3_3 ((-(dcm_from_quat (rot4 x))) *ᵥ etaB eta) w_b

/-- The spec's error dynamics for the MEKF: rotation-error derivative
`-(I - exp(η_r))·(ω - b) - exp(η_r)·η_b`, bias-error derivative `w_bias`. -/
def mekf_err_f_spec (omega : Vec3) (eta : Vec6) (x : Vec7) (w_b : Vec3) : Vec6 :=
  vcat3_3 (((-((1 - so3_exp (etaR eta)) *ᵥ (fun j => omega j - bias x j)))
    - (so3_exp (etaR eta) *ᵥ etaB eta)) : Vec3) w_b

/-- C3: the error-state dynamics each derivation linearizes to build `F` are
exactly the ones the spec states: `-DCM(x)·η_bias` and `w_bias` for the two
right-invariant filters, `-(I - exp(η_r))·(ω - b) - exp(η_r)·η_b` and
`w_bias` for the MEKF. -/
theorem C3_error_dynamics (omega : Vec3) (eta : Vec6) (x : Vec7) (w_b : Vec3) :
    mrp_err_f omega eta x w_b = mrp_err_f_spec omega eta x w_b ∧
    quat_err_f omega eta x w_b = quat_err_f_spec omega eta x w_b ∧
    mekf_err_f omega eta x w_b = mekf_err_f_spec omega eta x w_b := by
  refine ⟨?_, ?_, ?_⟩
  · rw [mrp_err_f, mrp_err_f_spec, Matrix.neg_mulVec]
    rfl
  · rw [quat_err_f, quat_err_f_spec, Matrix.neg_mulVec]
    rfl
  · rfl

/-! ## The shadow transform and its magnitude bound -/

theorem one_lt_mrp_norm_iff (r : Vec4) : 1 < mrp_norm r ↔ 1 < mrp_norm_sq r := by
  constructor
  · intro h
    by_contra hc
    push_neg at hc
    exact absurd (Real.sqrt_le_one.mpr hc) (not_le.mpr (by rwa [mrp_norm] at h))
  · intro h
    have h2 : Real.sqrt 1 < Real.sqrt (mrp_norm_sq r) := Real.sqrt_lt_sqrt (by norm_num) h
    rwa [mrp_norm, ← Real.sqrt_one]

theorem shadow_entry (r : Vec4) (h : 1 < mrp_norm r) (i : Fin 4) (hi : (i : ℕ) < 3) :
    shadow_if_required r i = -(r i) / mrp_norm_sq r := by
  simp only [shadow_if_required, if_pos h]
  rw [if_pos hi]

theorem mrp_norm_sq_shadow (r : Vec4) (h : 1 < mrp_norm r) :
    mrp_norm_sq (shadow_if_required r) = 1 / mrp_norm_sq r := by
  have hsq : 1 < mrp_norm_sq r := (one_lt_mrp_norm_iff r).mp h
  have hne : mrp_norm_sq r ≠ 0 := by linarith
  have hn : mrp_norm_sq r = r 0 ^ 2 + r 1 ^ 2 + r 2 ^ 2 := rfl
  calc mrp_norm_sq (shadow_if_required r)
      = (-(r 0) / mrp_norm_sq r) ^ 2 + (-(r 1) / mrp_norm_sq r) ^ 2
        + (-(r 2) / mrp_norm_sq r) ^ 2 := by
        rw [mrp_norm_sq, shadow_entry r h 0 (by norm_num), shadow_entry r h 1 (by norm_num),
          shadow_entry r h 2 (by norm_num)]
    _ = (r 0 ^ 2 + r 1 ^ 2 + r 2 ^ 2) / mrp_norm_sq r ^ 2 := by ring
    _ = mrp_norm_sq r / mrp_norm_sq r ^ 2 := by rw [← hn]
    _ = 1 / mrp_norm_sq r := by
        field_simp
        ring

theorem shadow_norm_le_one (r : Vec4) : mrp_norm (shadow_if_required r) ≤ 1 := by
  by_cases h : 1 < mrp_norm r
  · have hsq : 1 < mrp_norm_sq r := (one_lt_mrp_norm_iff r).mp h
    rw [mrp_norm, mrp_norm_sq_shadow r h]
    refine Real.sqrt_le_one.mpr ?_
    rw [div_le_one (by linarith)]
    linarith
  · push_neg at h
    rw [shadow_of_le_one r h]
    exact h

/-- C4: `shadow_if_required(r)` returns the shadow MRP — the `r·(-1/|r|²)`
transform on the rotation components — exactly when `|r| > 1` and returns `r`
unchanged otherwise; the MRP `simulate` applies it to the rotation block
after RK4 integration, so the returned rotation block always has magnitude
at most 1. -/
theorem C4_shadow_spec :
    (∀ r : Vec4,
      (1 < mrp_norm r → ∀ i : Fin 4, (i : ℕ) < 3 →
        shadow_if_required r i = r i * (-(1 / mrp_norm_sq r))) ∧
      (mrp_norm r ≤ 1 → shadow_if_required r = r)) ∧
    (∀ (t : ℝ) (x : Vec7) (omega w_g w_b : Vec3) (dt : ℝ),
      mrp_simulate t x omega w_g w_b dt =
        (let x1 := rk4 (fun s y => mrp_xdot s y omega w_g w_b) t x dt
         vcat4_3 (shadow_if_required (rot4 x1)) (bias x1)) ∧
      mrp_norm (rot4 (mrp_simulate t x omega w_g w_b dt)) ≤ 1) := by
  refine ⟨fun r => ⟨?_, shadow_of_le_one r⟩, fun t x omega w_g w_b dt => ⟨rfl, ?_⟩⟩
  · intro h i hi
    rw [shadow_entry r h i hi]
    ring
  · simp only [mrp_simulate]
    rw [rot4_vcat]
    exact shadow_norm_le_one _

/-- Concrete MRP state `(2, 0, 0, 0)` whose 3-vector magnitude `2` exceeds 1. -/
def r_cex : Vec4 := fun i => if (i : ℕ) = 0 then 2 else 0

theorem mrp_norm_r_cex : mrp_norm r_cex = 2 := by
  have hsq : mrp_norm_sq r_cex = 4 := by
    rw [mrp_norm_sq]
    norm_num [r_cex]
  rw [mrp_norm, hsq, show (4 : ℝ) = 2 ^ 2 by norm_num,
    Real.sqrt_sq (by norm_num : (0 : ℝ) ≤ 2)]

/-- C4 witness: at the concrete MRP `(2,0,0,0)` the magnitude premise holds
and the shadow transform fires on the first rotation component. -/
theorem C4_witness :
    1 < mrp_norm r_cex ∧
    shadow_if_required r_cex 0 = r_cex 0 * (-(1 / mrp_norm_sq r_cex)) :=
  ⟨by rw [mrp_norm_r_cex]; norm_num,
   (C4_shadow_spec.1 r_cex).1 (by rw [mrp_norm_r_cex]; norm_num) 0 (by norm_num)⟩

/-! ## C2: shadow switching in the mean path of `predict` -/

/-- Concrete 7-dim MRP state: rotation block `(2,0,0,0)`, zero bias. -/
def x_cex : Vec7 := fun i => if (i : ℕ) = 0 then 2 else 0

theorem bias_x_cex : bias x_cex = zero3 := by
  funext i
  simp only [bias, x_cex, zero3]
  rw [if_neg (by omega)]

theorem rot4_x_cex : rot4 x_cex = r_cex := rfl

theorem mrp_xdot_x_cex (s : ℝ) : mrp_xdot s x_cex zero3 zero3 zero3 = 0 := by
  have hrate : (fun i => zero3 i - bias x_cex i + zero3 i) = (fun _ => (0 : ℝ)) := by
    rw [bias_x_cex]
    funext i
    simp [zero3]
  rw [mrp_xdot, hrate, mrp_derivative_zero]
  exact vcat4_3_zero

theorem mrp_rk4_x_cex (dtv : ℝ) :
    rk4 (fun s y => mrp_xdot s y zero3 zero3 zero3) 0 x_cex dtv = x_cex :=
  rk4_fixed _ _ mrp_xdot_x_cex 0 dtv

theorem vcat4_3_at0 (a : Vec4) (b : Vec3) : vcat4_3 a b 0 = a 0 := by
  simp only [vcat4_3]
  rw [dif_pos (by norm_num)]
  exact congrArg a (Fin.ext (by simp))

/-- C2 counterexample: at rotation block `(2,0,0,0)`, zero rate and `dt = 1`,
the bare RK4 mean step returns first MRP component `2`, while `predict`'s
mean path returns `-1/2`: the shadow transform has been applied inside
`predict` after integration, refuting the claim that `predict`'s
mean-propagation path does not apply shadow-switching. -/
theorem C2_counterexample :
    mrp_predict_x 0 x_cex zero3 1 0 = -(1 / 2) ∧
    rk4 (fun s y => mrp_xdot s y zero3 zero3 zero3) 0 x_cex 1 0 = 2 := by
  constructor
  · have h2 : 1 < mrp_norm r_cex := by rw [mrp_norm_r_cex]; norm_num
    have hsq : mrp_norm_sq r_cex = 4 := by
      rw [mrp_norm_sq]
      norm_num [r_cex]
    simp only [mrp_predict_x]
    rw [mrp_rk4_x_cex, vcat4_3_at0, rot4_x_cex, shadow_entry r_cex h2 0 (by norm_num), hsq]
    norm_num [r_cex]
  · rw [mrp_rk4_x_cex]
    norm_num [x_cex]

/-- C2 amended: in the MRP parametrization BOTH the mean-propagation path of
`predict` (`sim.py` lines 48-49) and `simulate` (lines 44-45) apply
`shadow_if_required` to the rotation block after RK4 integration. -/
theorem C2_shadow_in_predict_and_simulate (t : ℝ) (x : Vec7)
    (omega w_g w_b : Vec3) (dt : ℝ) :
    mrp_predict_x t x omega dt =
      vcat4_3
        (shadow_if_required (rot4 (rk4 (fun s y => mrp_xdot s y omega zero3 zero3) t x dt)))
        (bias (rk4 (fun s y => mrp_xdot s y omega zero3 zero3) t x dt)) ∧
    mrp_simulate t x omega w_g w_b dt =
      vcat4_3
        (shadow_if_required (rot4 (rk4 (fun s y => mrp_xdot s y omega w_g w_b) t x dt)))
        (bias (rk4 (fun s y => mrp_xdot s y omega w_g w_b) t x dt)) := ⟨rfl, rfl⟩

/-! ## C1: triangularity of the propagated covariance factor -/

theorem tril_lower (M : Mat6) : IsLowerTri (tril M) := by
  intro i j hij
  simp only [tril]
  rw [if_neg (by omega)]

theorem rk4_lower (f : ℝ → Mat6 → Mat6) (t dtv : ℝ) (W : Mat6)
    (hf : ∀ s Y, IsLowerTri (f s Y)) (hW : IsLowerTri W) :
    IsLowerTri (rk4 f t W dtv) := by
  intro i j hij
  have h1 : ∀ (s : ℝ) (Y : Mat6), f s Y i j = 0 := fun s Y => hf s Y i j hij
  simp only [rk4, Matrix.add_apply, Matrix.smul_apply, h1, hW i j hij]
  simp

/-- C1 (amended): for every call to `predict` with a lower-triangular 6×6
input factor `W`, the returned covariance factor `W1` has every
strictly-upper entry zero, in all three parametrizations.  (The claim's
non-negative-diagonal part fails; see the counterexample.) -/
theorem C1_predict_W_lower_triangular (t : ℝ) (x : Vec7) (W : Mat6)
    (omega : Vec3) (std_gyro sn_gyro_rw dt : ℝ) (hW : IsLowerTri W) :
    IsLowerTri (mrp_predict t x W omega std_gyro sn_gyro_rw dt).2 ∧
    IsLowerTri (quat_predict t x W omega std_gyro sn_gyro_rw dt).2 ∧
    IsLowerTri (mekf_predict t x W omega std_gyro sn_gyro_rw dt).2 := by
  refine ⟨?_, ?_, ?_⟩
  · show IsLowerTri (mrp_predict_W t x W omega std_gyro sn_gyro_rw dt)
    rw [mrp_predict_W]
    exact rk4_lower (fun s y => mrp_W_dot_lt x y std_gyro sn_gyro_rw omega dt) t dt W
      (fun s Y => by simp only [mrp_W_dot_lt]; exact tril_lower _) hW
  · show IsLowerTri (quat_predict_W t x W omega std_gyro sn_gyro_rw dt)
    rw [quat_predict_W]
    exact rk4_lower (fun s y => quat_W_dot_lt x y std_gyro sn_gyro_rw omega dt) t dt W
      (fun s Y => by simp only [quat_W_dot_lt]; exact tril_lower _) hW
  · show IsLowerTri (mekf_predict_W t x W omega std_gyro sn_gyro_rw dt)
    rw [mekf_predict_W]
    exact rk4_lower (fun s y => mekf_W_dot_lt x y std_gyro sn_gyro_rw omega dt) t dt W
      (fun s Y => by simp only [mekf_W_dot_lt]; exact tril_lower _) hW

theorem W0_lower : IsLowerTri W0 := by
  intro i j hij
  rw [W0, Matrix.smul_apply, Matrix.one_apply,
    if_neg (Fin.ne_of_val_ne (by omega : (i : ℕ) ≠ (j : ℕ)))]
  simp

/-- C1 witness: the initial factor `W0 = 1e-3·I` is lower-triangular and the
three predicts keep the strictly-upper entries zero at a concrete call. -/
theorem C1_witness :
    IsLowerTri W0 ∧
    (IsLowerTri (mrp_predict 0 mrp_x0 W0 zero3 1 1 1).2 ∧
     IsLowerTri (quat_predict 0 mrp_x0 W0 zero3 1 1 1).2 ∧
     IsLowerTri (mekf_predict 0 mrp_x0 W0 zero3 1 1 1).2) :=
  ⟨W0_lower, C1_predict_W_lower_triangular 0 mrp_x0 W0 zero3 1 1 1 W0_lower⟩

theorem Qcov_zero (dt : ℝ) : Qcov 0 0 dt = 0 := by
  rw [Qcov]
  have hfun : (fun i : Fin 6 =>
      (if (i : ℕ) < 3 then (0 : ℝ) else 0 / Real.sqrt dt) ^ 2) = fun _ => 0 := by
    funext i
    split <;> simp
  rw [hfun, Matrix.diagonal_zero]

theorem scp_Q_zero (W F : Mat6) : sqrt_covariance_predict W F 0 = F * W := by
  rw [sqrt_covariance_predict]
  simp

theorem fin4_val_0 : ((0 : Fin 4) : ℕ) = 0 := rfl

theorem fin4_val_1 : ((1 : Fin 4) : ℕ) = 1 := rfl

theorem fin4_val_2 : ((2 : Fin 4) : ℕ) = 2 := rfl

theorem fin4_val_3 : ((3 : Fin 4) : ℕ) = 3 := rfl

theorem fin6_val_0 : ((0 : Fin 6) : ℕ) = 0 := rfl

theorem fin6_val_1 : ((1 : Fin 6) : ℕ) = 1 := rfl

theorem fin6_val_2 : ((2 : Fin 6) : ℕ) = 2 := rfl

theorem fin6_val_3 : ((3 : Fin 6) : ℕ) = 3 := rfl

theorem fin6_val_4 : ((4 : Fin 6) : ℕ) = 4 := rfl

theorem fin6_val_5 : ((5 : Fin 6) : ℕ) = 5 := rfl

theorem dcm_from_quat_q_id : dcm_from_quat q_id = 1 := by
  funext i j
  fin_cases i <;> fin_cases j <;>
    norm_num [dcm_from_quat, q_id, Matrix.one_apply, Fin.ext_iff,
      fin4_val_0, fin4_val_1, fin4_val_2, fin4_val_3]

theorem dcm_from_mrp_x0 : dcm_from_mrp (rot4 mrp_x0) = 1 := by
  rw [dcm_from_mrp, quat_from_mrp_x0, dcm_from_quat_q_id]

theorem mrp_F_x0 (omega : Vec3) : mrp_F omega mrp_x0 = Fblock 0 (-1) := by
  rw [mrp_F, dcm_from_mrp_x0]

theorem mul_Fblock_neg_one_00 (Y : Mat6) : ((Fblock 0 (-1)) * Y) 0 0 = -(Y 3 0) := by
  rw [Matrix.mul_apply, Fin.sum_univ_six]
  norm_num [Fblock, Matrix.one_apply, Fin.ext_iff,
    fin6_val_0, fin6_val_1, fin6_val_2, fin6_val_3, fin6_val_4, fin6_val_5]

theorem mul_Fblock_neg_one_30 (Y : Mat6) : ((Fblock 0 (-1)) * Y) 3 0 = 0 := by
  rw [Matrix.mul_apply, Fin.sum_univ_six]
  norm_num [Fblock, Fin.ext_iff,
    fin6_val_0, fin6_val_1, fin6_val_2, fin6_val_3, fin6_val_4, fin6_val_5]

theorem mrp_Wdot_00 (Y : Mat6) (dtv : ℝ) :
    mrp_W_dot_lt mrp_x0 Y 0 0 zero3 dtv 0 0 = -(Y 3 0) := by
  rw [mrp_W_dot_lt, Qcov_zero, scp_Q_zero, mrp_F_x0]
  simp only [tril]
  rw [if_pos (le_refl _)]
  exact mul_Fblock_neg_one_00 Y

theorem mrp_Wdot_30 (Y : Mat6) (dtv : ℝ) :
    mrp_W_dot_lt mrp_x0 Y 0 0 zero3 dtv 3 0 = 0 := by
  rw [mrp_W_dot_lt, Qcov_zero, scp_Q_zero, mrp_F_x0]
  simp only [tril]
  rw [if_pos (by norm_num [fin6_val_0, fin6_val_3])]
  exact mul_Fblock_neg_one_30 Y

/-- Lower-triangular input factor: identity plus the below-diagonal entry
`W[3,0] = 2`. -/
def W_cex : Mat6 := fun i j =>
  if i = j then 1 else if (i : ℕ) = 3 ∧ (j : ℕ) = 0 then 2 else 0

theorem W_cex_lower : IsLowerTri W_cex := by
  intro i j hij
  simp only [W_cex]
  rw [if_neg (Fin.ne_of_val_ne (by omega : (i : ℕ) ≠ (j : ℕ))), if_neg (by omega)]

theorem W_cex_00 : W_cex 0 0 = 1 := by
  simp [W_cex]

theorem W_cex_30 : W_cex 3 0 = 2 := by
  norm_num [W_cex, Fin.ext_iff, fin6_val_0, fin6_val_3]

/-- C1 counterexample: with the lower-triangular input factor `W_cex`
(positive diagonal), zero noise densities, `x = x0`, `ω = 0` and `dt = 1`,
the MRP `predict` returns a covariance factor whose diagonal entry
`W1[0,0]` equals `-1 < 0` — the non-negative-diagonal part of the claim
fails. -/
theorem C1_counterexample :
    IsLowerTri W_cex ∧ (mrp_predict 0 mrp_x0 W_cex zero3 0 0 1).2 0 0 < 0 := by
  refine ⟨W_cex_lower, ?_⟩
  show mrp_predict_W 0 mrp_x0 W_cex zero3 0 0 1 0 0 < 0
  have key00 : ∀ Y : Mat6, mrp_W_dot_lt mrp_x0 Y 0 0 zero3 1 0 0 = -(Y 3 0) :=
    fun Y => mrp_Wdot_00 Y 1
  have key30 : ∀ Y : Mat6, mrp_W_dot_lt mrp_x0 Y 0 0 zero3 1 3 0 = 0 :=
    fun Y => mrp_Wdot_30 Y 1
  simp only [mrp_predict_W, rk4, Matrix.add_apply, Matrix.smul_apply, key00, key30,
    smul_eq_mul, W_cex_00, W_cex_30]
  norm_num
